import Mathlib

/-!
Verification of the presence reconciliation engine of `discord-mpris-rs`
(`src/main.rs`): configuration cache, cover-art resolver, row-template
engine, state reconciler and poll loop.

The embedding is shallow and executable.  Rust `String`s become Lean
`String`s, the global mutable caches (`CONFIG`, `COVER_ART_CACHE`,
`CURRENT`) become explicit state arguments threaded through the
functions, the process environment (`env::var`) and the MusicBrainz
search service (`Release::search(...).execute()`) become function-typed
oracles, and the panicking operations (`unwrap`, `expect`,
`assert_eq!`) become an `Option` layer where `none` is a panic.  All
string processing is re-implemented structurally on `List Char` so that
every definition evaluates inside the kernel (`decide` / `rfl`).
-/

namespace DiscordMpris

/-! ### String primitives

Kernel-friendly models of the Rust string operations used by
`main.rs`: `str::replace`, `str::split(',')`, `str::trim`,
`str::to_lowercase`, `u64::from_str`, `bool::from_str`, and
`[String]::join`. -/

/-- `listBeginsWith s p` is true when `p` is an initial segment of `s`. -/
def listBeginsWith : List Char → List Char → Bool
  | _, [] => true
  | [], _ :: _ => false
  | c :: cs, p :: ps => c == p && listBeginsWith cs ps

/-- Fuelled core of `str::replace`: replaces every non-overlapping,
leftmost-first occurrence of `pat` by `rep`.  One unit of fuel is spent
per consumed character, so fuel equal to the length of the subject
string is always sufficient (the patterns used by the program are never
empty). -/
def replaceFuel : Nat → List Char → List Char → List Char → List Char
  | 0, s, _, _ => s
  | _ + 1, [], _, _ => []
  | n + 1, c :: cs, pat, rep =>
    if pat ≠ [] ∧ listBeginsWith (c :: cs) pat then
      rep ++ replaceFuel n ((c :: cs).drop pat.length) pat rep
    else
      c :: replaceFuel n cs pat rep

/-- Model of Rust `str::replace` (as used with the always-nonempty
pattern `"{field}"` in `process_metadata`). -/
def replaceStr (s pat rep : String) : String :=
  String.mk (replaceFuel s.data.length s.data pat.data rep.data)

/-- Helper for `splitCommas`: accumulates the current (reversed) piece. -/
def splitCommaAux : List Char → List Char → List (List Char)
  | [], acc => [acc.reverse]
  | c :: cs, acc =>
    if c == ',' then acc.reverse :: splitCommaAux cs [] else splitCommaAux cs (c :: acc)

/-- Model of Rust `str::split(',')`: empty pieces are kept, and the
empty string splits to `[""]`. -/
def splitCommas (s : String) : List String :=
  (splitCommaAux s.data []).map String.mk

/-- Model of Rust `str::trim` (ASCII whitespace; the configuration
values in play never contain the exotic Unicode whitespace on which
`char::is_whitespace` is wider). -/
def trimStr (s : String) : String :=
  String.mk (((s.data.dropWhile Char.isWhitespace).reverse.dropWhile Char.isWhitespace).reverse)

/-- Model of Rust `str::to_lowercase` (ASCII case mapping; player
identities are ASCII). -/
def lowerStr (s : String) : String :=
  String.mk (s.data.map Char.toLower)

/-- Digit-string accumulator for `parseU64`. -/
def digitsAux : List Char → Nat → Option Nat
  | [], acc => some acc
  | c :: cs, acc =>
    if c.isDigit then digitsAux cs (10 * acc + (c.toNat - 48)) else none

/-- Model of Rust `u64::from_str`: an optional leading `+`, then one or
more decimal digits, value below `2 ^ 64`; anything else is a
`ParseIntError`. -/
def parseU64 (raw : String) : Option Nat :=
  let cs :=
    match raw.data with
    | '+' :: rest => rest
    | other => other
  match cs with
  | [] => none
  | _ =>
    match digitsAux cs 0 with
    | some n => if n < 2 ^ 64 then some n else none
    | none => none

/-- Model of Rust `bool::from_str`: exactly `"true"` or `"false"`. -/
def parseBool (raw : String) : Option Bool :=
  if raw = "true" then some true
  else if raw = "false" then some false
  else none

/-- Association-list lookup modelling `HashMap::get` (the maps in the
program are keyed by `String`; insertion is modelled by prepending, so
the first hit is the most recent insertion, matching `HashMap`
overwrite semantics). -/
def alookup (k : String) : List (String × α) → Option α
  | [] => none
  | (k', v) :: rest => if k = k' then some v else alookup k rest

/-- Model of Rust `[String]::join(sep)`. -/
def joinWith (sep : String) : List String → String
  | [] => ""
  | [x] => x
  | x :: y :: rest => x ++ sep ++ joinWith sep (y :: rest)

/-! ### Error type (`enum AppError`, main.rs lines 16-47)

The carried payloads that the claims never inspect (DBus error text,
`ParseIntError` contents, the boxed `dyn Error` of `ParseError`) are
dropped.  The variants that feed the claims keep their payloads. -/

/-- Model of `enum AppError`.  Note that `ParseError` is the variant
produced when `Config::get` propagates a `Box<dyn Error>` out of
`Config::parse_value` via `#[from]`. -/
inductive AppError where
  | EnvVar
  | DBus
  | Finding
  | MusicBrainz
  | NoActivePlayers
  | ParseInt
  | TypeMismatch (key : String)
  | ParseError
  | NoSongPlaying
  | FieldNotFound (field : String)
deriving DecidableEq, Repr

/-! ### Configuration cache (`struct Config`, main.rs lines 49-159) -/

/-- Model of `enum ConfigValue`.  `Duration` is the millisecond count
passed to `Duration::from_millis`. -/
inductive ConfigValue where
  | Vec (xs : List String)
  | String (s : String)
  | Bool (b : Bool)
  | Duration (millis : Nat)
deriving DecidableEq, Repr

/-- The error type of `Config::parse_value`, whose Rust signature is
`Result<ConfigValue, Box<dyn Error>>`.  The only error the function can
box is the `ParseIntError` of `raw.parse::<u64>()`. -/
inductive DynError where
  | fromParseInt
deriving DecidableEq, Repr

/-- Model of `struct Config`: the `RwLock<HashMap<..>>` cache becomes a
plain association list (most recent insertion first). -/
structure Config where
  cache : List (String × ConfigValue)
deriving DecidableEq, Repr

/-- Model of `Config::parse_value` (main.rs lines 95-110): classify the
raw environment string by trial — boolean literal first, then the two
recognised list-typed keys, then the recognised duration key, otherwise
an opaque string. -/
def Config.parse_value (key raw : String) : Except DynError ConfigValue :=
  match parseBool raw with
  | some b => .ok (.Bool b)
  | none =>
    if key = "ignored_players" ∨ key = "rows" then
      .ok (.Vec ((splitCommas raw).map trimStr))
    else if key = "update_interval" then
      match parseU64 raw with
      | some n => .ok (.Duration n)
      | none => .error .fromParseInt
    else .ok (.String raw)

/-- The four `TryFrom<ConfigValue>` impls (main.rs lines 117-159),
passed to `Config.get` in place of the Rust type parameter `T`. -/
def tryFromBool : ConfigValue → Option Bool
  | .Bool b => some b
  | _ => none

/-- `TryFrom<ConfigValue> for String`. -/
def tryFromString : ConfigValue → Option String
  | .String s => some s
  | _ => none

/-- `TryFrom<ConfigValue> for Vec<String>`. -/
def tryFromVec : ConfigValue → Option (List String)
  | .Vec xs => some xs
  | _ => none

/-- `TryFrom<ConfigValue> for Duration` (milliseconds). -/
def tryFromDuration : ConfigValue → Option Nat
  | .Duration n => some n
  | _ => none

/-- Model of `Config::get` (main.rs lines 73-93).  `env` models
`env::var` (`none` = variable unset, mapped to `AppError::EnvVar`);
`tf` models `T::try_from` (failure mapped to `TypeMismatch(key)`).  A
`Box<dyn Error>` escaping `parse_value` is converted by `?` through
`#[from] Box<dyn Error>` into `AppError::ParseError`.  Returns the
result together with the updated cache. -/
def Config.get (cfg : Config) (env : String → Option String)
    (tf : ConfigValue → Option α) (key : String) :
    Except AppError α × Config :=
  match alookup key cfg.cache with
  | some v =>
    (match tf v with
     | some a => .ok a
     | none => .error (.TypeMismatch key), cfg)
  | none =>
    match env key with
    | none => (.error .EnvVar, cfg)
    | some raw =>
      match Config.parse_value key raw with
      | .error _ => (.error .ParseError, cfg)
      | .ok v =>
        let cfg' : Config := ⟨(key, v) :: cfg.cache⟩
        (match tf v with
         | some a => .ok a
         | none => .error (.TypeMismatch key), cfg')

/-! ### Cover-art resolver (`struct CoverArt` and `get_cover_art`,
main.rs lines 161-238) -/

/-- Model of `struct CoverArt`: cache from `release + "_" + artist` to
image URL. -/
structure CoverArt where
  cache : List (String × String)
deriving DecidableEq, Repr

/-- Model of `CoverArt::cache` (the insert method; renamed because the
Lean field of the same name shadows it). -/
def CoverArt.insertCache (ca : CoverArt) (release artist url : String) : CoverArt :=
  ⟨(release ++ "_" ++ artist, url) :: ca.cache⟩

/-- Model of `CoverArt::has`. -/
def CoverArt.has (ca : CoverArt) (key : String) : Bool :=
  (alookup key ca.cache).isSome

/-- Model of `CoverArt::get` (returns the empty string on a miss, just
like the Rust method). -/
def CoverArt.get (ca : CoverArt) (key : String) : String :=
  (alookup key ca.cache).getD ""

/-- The MusicBrainz "Nagios check" release id: what the search returns
for the degenerate query, treated by `get_cover_art` as "no match". -/
def sentinelMbid : String := "1735e086-462e-42c3-b615-eebbd5e9f352"

/-! ### Metadata values (`mpris::MetadataValue` and `value_to_string`,
main.rs lines 268-279)

`MetadataValue::Array(Vec<MetadataValue>)` is a nested inductive; it is
declared mutually with its own list type so that the stringification
can be defined by mutual structural recursion (and hence evaluates in
the kernel).  `Unsupported` stands for every other `MetadataValue`
variant, all of which `value_to_string` sends to the fixed
placeholder. -/

mutual
inductive MetadataValue where
  | String (s : String)
  | Array (xs : MetadataList)
  | Unsupported
inductive MetadataList where
  | nil
  | cons (head : MetadataValue) (tail : MetadataList)
end

/-! `value_to_string` (main.rs lines 268-279): strings pass through,
arrays are stringified element-wise and joined with `", "`, everything
else becomes `"<unsupported>"`. -/

mutual
def value_to_string : MetadataValue → String
  | .String s => s
  | .Array arr => joinWith ", " (valuesToStrings arr)
  | .Unsupported => "<unsupported>"
def valuesToStrings : MetadataList → List String
  | .nil => []
  | .cons v vs => value_to_string v :: valuesToStrings vs
end

/-! ### ActivityInfo and Current (main.rs lines 240-327) -/

/-- Model of `struct ActivityInfo`: the four presence rows.  The Rust
`Arc<str>` fields are plain strings here. -/
structure ActivityInfo where
  details : String
  state : String
  subtitle : String
  image : String
deriving DecidableEq, Repr

/-- Model of `ActivityInfo::is_empty`. -/
def ActivityInfo.is_empty (a : ActivityInfo) : Bool :=
  a.details.data.isEmpty && a.state.data.isEmpty
    && a.subtitle.data.isEmpty && a.image.data.isEmpty

/-- Model of `ActivityInfo::default`: four empty strings. -/
def ActivityInfo.default : ActivityInfo := ⟨"", "", "", ""⟩

/-- Model of `struct Current`. -/
structure Current where
  release : String
  artist : String
  url : String
  activity : ActivityInfo
deriving DecidableEq, Repr

/-- Model of the `PartialEq` impl for `Current` (main.rs lines
289-296): `activity` is ignored; only `(release, artist, url)` is
compared. -/
def Current.eq (a b : Current) : Bool :=
  a.release == b.release && a.artist == b.artist && a.url == b.url

/-- Model of `Current::new` (main.rs lines 298-307). -/
def Current.new (activity : Option ActivityInfo) : Current :=
  { release := "", artist := "", url := "",
    activity := activity.getD ActivityInfo.default }

/-- Model of `Current::default`. -/
def Current.default : Current := Current.new none

/-! ### The FILTER regex (main.rs lines 329-331)

`FILTER` is `^.*?\x7b([^\x7d]+)\x7d.*?$` (shown here with braces
escaped), applied through `replace_all(raw_row, "$1")`.  Because the
pattern is anchored at both ends, it matches at most once and the
replacement is then the captured group; when it does not match,
`replace_all` returns the input unchanged.  Spelled out against the
regex crate's leftmost-first semantics: scanning left to right for the
first `\x7b` that is followed by a nonempty run of non-`\x7d`
characters and then a `\x7d`, where the dot cannot cross a newline on
either side of the bracketed group (the capture itself may contain
newlines, since a character class does match `\n`). -/

/-- Splits off the maximal leading run of non-`\x7d` characters (the
greedy `[^\x7d]+` step of the FILTER regex). -/
def braceSpan : List Char → List Char × List Char
  | [] => ([], [])
  | c :: cs =>
    if c = '\x7d' then ([], c :: cs)
    else
      let p := braceSpan cs
      (c :: p.1, p.2)

/-- True when the list contains no newline (the region a `.` must be
able to traverse). -/
def noNewlineIn (cs : List Char) : Bool :=
  cs.all (fun c => c != '\n')

/-- The match attempt of the FILTER regex: returns the captured field
name of the leftmost successful match, or `none` when the regex does
not match the row at all. -/
def filterFind : List Char → Option (List Char)
  | [] => none
  | c :: cs =>
    if c = '\n' then none
    else if c = '\x7b' then
      match braceSpan cs with
      | (cap, _ :: tail) =>
        if cap ≠ [] ∧ noNewlineIn tail then some cap
        else filterFind cs
      | (_, []) => filterFind cs
    else filterFind cs

/-- Model of `FILTER.replace_all(&raw_row, "$1").to_string()` (main.rs
line 390): the captured field name when the anchored regex matches,
otherwise the row text unchanged. -/
def extractField (s : String) : String :=
  match filterFind s.data with
  | some cap => String.mk cap
  | none => s

/-! ### Row-template engine (the rows loop of `process_metadata`,
main.rs lines 385-402) -/

/-- One iteration of the rows loop (main.rs lines 389-398): extract the
bracketed field, prefix `xesam:`, look it up in the metadata map; on a
hit substitute the stringified value for the bracket expression, on a
miss fail with `FieldNotFound(field)`. -/
def renderRow (meta : List (String × MetadataValue)) (raw_row : String) :
    Except AppError String :=
  match alookup ("xesam:" ++ extractField raw_row) meta with
  | some val =>
    .ok (replaceStr raw_row
          ("\x7b" ++ extractField raw_row ++ "\x7d") (value_to_string val))
  | none => .error (.FieldNotFound (extractField raw_row))

/-- The rows loop over a template list, aborting at the first failing
row. -/
def renderRowsAux (meta : List (String × MetadataValue)) :
    List String → Except AppError (List String)
  | [] => .ok []
  | r :: rs =>
    match renderRow meta r with
    | .error e => .error e
    | .ok v =>
      match renderRowsAux meta rs with
      | .error e => .error e
      | .ok vs => .ok (v :: vs)

/-- The `while ret.len() < 3` padding loop (main.rs lines 400-402). -/
def padTo3 (xs : List String) : List String :=
  xs ++ List.replicate (3 - xs.length) ""

/-- The complete row-template engine: process at most the first three
templates (`rows.into_iter().take(3)`), then pad with empty strings to
exactly three rows. -/
def renderRows (meta : List (String × MetadataValue)) (rows : List String) :
    Except AppError (List String) :=
  match renderRowsAux meta (rows.take 3) with
  | .error e => .error e
  | .ok vs => .ok (padTo3 vs)

/-! ### Player snapshot (the mpris collaborator, read-only) -/

/-- `mpris::PlaybackStatus`. -/
inductive PlaybackStatus where
  | Playing
  | Paused
  | Stopped
deriving DecidableEq, Repr

/-- A player session as `process_metadata` reads it: identity, playback
status and the metadata map.  The DBus calls that produce these values
are modelled as infallible reads of this snapshot. -/
structure Player where
  identity : String
  playback_status : PlaybackStatus
  metadata : List (String × MetadataValue)

/-- Elementwise string extraction used by `Metadata::album_artists`:
succeeds only when every member of the array is a string. -/
def allStrings : MetadataList → Option (List String)
  | .nil => some []
  | .cons (.String s) rest => (allStrings rest).map (fun l => s :: l)
  | .cons _ _ => none

/-- Model of `metadata.album_name()`: the `xesam:album` entry, when it
is a string. -/
def albumNameOf (meta : List (String × MetadataValue)) : Option String :=
  match alookup "xesam:album" meta with
  | some (.String s) => some s
  | _ => none

/-- Model of `metadata.album_artists()`: the `xesam:albumArtist` entry,
when it is an array of strings. -/
def albumArtistsOf (meta : List (String × MetadataValue)) : Option (List String) :=
  match alookup "xesam:albumArtist" meta with
  | some (.Array xs) => allStrings xs
  | _ => none

/-! ### get_cover_art (main.rs lines 204-238) -/

/-- Model of `get_cover_art`.  `search` is the MusicBrainz oracle: the
list of release ids of `Release::search(query).execute().entities`,
indexed by the raw release and artist strings (query escaping is a
bijective encoding and is dropped).  Returns the result together with
the possibly-updated cache; the cache is written only on the positive
path. -/
def get_cover_art (search : String → String → List String)
    (ca : CoverArt) (current : Current) : Except String String × CoverArt :=
  let key := current.release ++ "_" ++ current.artist
  if CoverArt.has ca key then
    (.ok (CoverArt.get ca key), ca)
  else
    match search current.release current.artist with
    | [] => (.error ("could not find release " ++ current.release), ca)
    | mbid :: _ =>
      if mbid = sentinelMbid then
        (.error "could not find cover art", ca)
      else
        let url := "https://coverartarchive.org/release/" ++ mbid ++ "/front"
        (.ok url, ca.insertCache current.release current.artist url)

/-! ### process_metadata (main.rs lines 333-437) -/

/-- The synthetic activity of the stopped-and-shown branch (main.rs
lines 355-362). -/
def stoppedActivity (player_name : String) : ActivityInfo :=
  ⟨"Stopped playback", "", "", player_name⟩

/-- Which collaborators a `process_metadata` run invoked: the
row-template engine (the rows loop), the cover-art resolver
(`get_cover_art`), and the metadata read (`player.get_metadata()`).
Pure instrumentation; it does not influence any result. -/
structure Calls where
  template : Bool
  cover : Bool
  metadata : Bool
deriving DecidableEq, Repr

/-- The all-false instrumentation record. -/
def Calls.zero : Calls := ⟨false, false, false⟩

deriving instance DecidableEq for Except

/-- The outcome of one `process_metadata` run: the returned
`Result<Current, AppError>`, the final configuration cache, the final
cover-art cache, and the instrumentation flags. -/
structure PMResult where
  result : Except AppError Current
  config : Config
  cover : CoverArt
  calls : Calls
deriving DecidableEq, Repr

/-- Model of `process_metadata` (main.rs lines 333-437).

Inputs: the environment oracle, the MusicBrainz oracle, the
configuration cache (`CONFIG`), the cover-art cache
(`COVER_ART_CACHE`), the player list as `PlayerFinder::find_all`
returns it, and the stored `CURRENT`.

`none` models a panic: the `metadata.album_name().unwrap()` /
`album_artists().unwrap()` calls on a playing session lacking those
fields, and the `assert_eq!(ret.len(), 4)` check.  DBus-level failures
of the finder and of `get_playback_status` are outside the snapshot
model. -/
def process_metadata (env : String → Option String)
    (search : String → String → List String) (cfg0 : Config) (ca : CoverArt)
    (players : List Player) (current : Current) : Option PMResult :=
  match Config.get cfg0 env tryFromVec "ignored_players" with
  | (.error e, cfg) => some ⟨.error e, cfg, ca, Calls.zero⟩
  | (.ok ignored_players, cfg1) =>
  match Config.get cfg1 env tryFromBool "show_paused" with
  | (.error e, cfg) => some ⟨.error e, cfg, ca, Calls.zero⟩
  | (.ok show_paused, cfg2) =>
  match Config.get cfg2 env tryFromBool "show_stopped" with
  | (.error e, cfg) => some ⟨.error e, cfg, ca, Calls.zero⟩
  | (.ok show_stopped, cfg3) =>
  match players.filter (fun p => !(ignored_players.contains p.identity)) with
  | [] => some ⟨.error .NoActivePlayers, cfg3, ca, Calls.zero⟩
  | player :: _ =>
  let playback_status := player.playback_status
  let player_name := lowerStr player.identity
  if show_stopped ∧ playback_status = .Stopped then
    some ⟨.ok (Current.new (some (stoppedActivity player_name))), cfg3, ca, Calls.zero⟩
  else if (playback_status = .Paused ∧ ¬show_paused) ∨ playback_status = .Stopped then
    some ⟨.error .NoSongPlaying, cfg3, ca, Calls.zero⟩
  else
  let meta := player.metadata
  match albumNameOf meta, albumArtistsOf meta with
  | some album, some artists =>
    let new0 : Current :=
      { release := album, artist := joinWith ", " artists,
        url := current.url, activity := ActivityInfo.default }
    if new0.release = current.release ∧ current.activity.is_empty = false then
      some ⟨.ok current, cfg3, ca, ⟨false, false, true⟩⟩
    else
      match Config.get cfg3 env tryFromVec "rows" with
      | (.error e, cfg4) => some ⟨.error e, cfg4, ca, ⟨false, false, true⟩⟩
      | (.ok rows, cfg4) =>
      match renderRows meta rows with
      | .error e => some ⟨.error e, cfg4, ca, ⟨true, false, true⟩⟩
      | .ok rendered =>
      let player_name2 :=
        if playback_status = .Paused ∧ show_paused then player_name ++ "_paused"
        else player_name
      match Config.get cfg4 env tryFromBool "fetch_cover_art" with
      | (.error e, cfg5) => some ⟨.error e, cfg5, ca, ⟨true, false, true⟩⟩
      | (.ok fetch_cover_art, cfg5) =>
      let step :=
        if fetch_cover_art then
          match get_cover_art search ca new0 with
          | (.ok url, ca') => (url, ca', true)
          | (.error _, ca') => (player_name2, ca', true)
        else (player_name2, ca, false)
      match rendered ++ [step.1] with
      | [a, b, c, d] =>
        some ⟨.ok { new0 with url := step.1, activity := ⟨a, b, c, d⟩ },
              cfg5, step.2.1, ⟨true, step.2.2, true⟩⟩
      | _ => none
  | _, _ => none

/-! ### The poll loop (main.rs lines 450-485)

One iteration of the `loop` in `main`, abstracted over the outcome of
`process_metadata`.  The transport (`client.send_and_wait`) is modelled
as an emitted event list. -/

/-- A transport call: a presence update carrying the activity rows, or
the blank packet that clears the rich presence. -/
inductive Transport where
  | setActivity (a : ActivityInfo)
  | clear
deriving DecidableEq, Repr

/-- The loop state across ticks: the `listening` flag and the stored
`CURRENT`. -/
structure LoopState where
  listening : Bool
  current : Current
deriving DecidableEq, Repr

/-- Model of one poll-loop iteration (main.rs lines 452-482): on
success set `listening`, and broadcast plus store only when the new
`Current` differs from the stored one under `Current.eq`; on failure
retract once (clear packet, reset `CURRENT`) if `listening` was set,
else do nothing. -/
def tick (st : LoopState) (res : Except AppError Current) :
    LoopState × List Transport :=
  match res with
  | .ok new =>
    if Current.eq st.current new then
      ({ listening := true, current := st.current }, [])
    else
      ({ listening := true, current := new }, [Transport.setActivity new.activity])
  | .error _ =>
    if st.listening then
      ({ listening := false, current := Current.default }, [Transport.clear])
    else
      (st, [])

/-! ### Specification shapes and concrete fixtures -/

/-- The shape of a fully assembled activity: the image row equals the
stored url, and the first three rows are a successful render (hence
exactly three rows, padded). -/
def assembledShape (c : Current) : Prop :=
  c.activity.image = c.url
  ∧ ∃ meta rows, renderRows meta rows
      = .ok [c.activity.details, c.activity.state, c.activity.subtitle]

/-- Fixture: an environment whose `update_interval` is the non-integer,
non-boolean string `"abc"`. -/
def envC4 : String → Option String := fun k =>
  if k = "update_interval" then some "abc" else none

/-- Fixture: a complete configuration environment with every display
option off and a single `\x7btitle\x7d` row template. -/
def envA : String → Option String := fun k =>
  if k = "ignored_players" then some "none"
  else if k = "show_paused" then some "false"
  else if k = "show_stopped" then some "false"
  else if k = "rows" then some "\x7btitle\x7d"
  else if k = "fetch_cover_art" then some "false"
  else none

/-- Fixture: a MusicBrainz oracle that never finds anything. -/
def searchA : String → String → List String := fun _ _ => []

/-- Fixture: a playing session on album `"R"` by artist `"B"`. -/
def playerA : Player :=
  { identity := "MyPlayer", playback_status := .Playing,
    metadata := [("xesam:album", .String "R"),
                 ("xesam:albumArtist", .Array (.cons (.String "B") .nil)),
                 ("xesam:title", .String "T")] }

/-- Fixture: a stored `Current` for album `"R"` by a different artist
`"A"`, with a non-empty activity. -/
def storedA : Current := ⟨"R", "A", "u", ⟨"d", "s", "t", "i"⟩⟩

/-- Fixture: an environment with `show_stopped` enabled. -/
def envB : String → Option String := fun k =>
  if k = "ignored_players" then some "none"
  else if k = "show_paused" then some "false"
  else if k = "show_stopped" then some "true"
  else none

/-- Fixture: a stopped session. -/
def playerB : Player :=
  { identity := "MyPlayer", playback_status := .Stopped, metadata := [] }

/-! ## Helper lemmas -/

/-- The rows loop returns one rendered row per processed template. -/
theorem renderRowsAux_length (meta : List (String × MetadataValue)) :
    ∀ rows out, renderRowsAux meta rows = .ok out → out.length = rows.length := by
  intro rows
  induction rows with
  | nil =>
    intro out h
    simp only [renderRowsAux] at h
    cases h
    rfl
  | cons r rs ih =>
    intro out h
    simp only [renderRowsAux] at h
    cases hr : renderRow meta r with
    | error e => rw [hr] at h; cases h
    | ok v =>
      rw [hr] at h
      cases haux : renderRowsAux meta rs with
      | error e => rw [haux] at h; cases h
      | ok vs =>
        rw [haux] at h
        cases h
        simp [ih vs haux]

/-- Padding yields exactly three rows whenever at most three were
rendered. -/
theorem padTo3_length (xs : List String) (h : xs.length ≤ 3) :
    (padTo3 xs).length = 3 := by
  simp only [padTo3, List.length_append, List.length_replicate]
  omega

/-- A successful render always returns exactly three rows. -/
theorem renderRows_length (meta : List (String × MetadataValue))
    (rows out : List String) (h : renderRows meta rows = .ok out) :
    out.length = 3 := by
  unfold renderRows at h
  cases haux : renderRowsAux meta (rows.take 3) with
  | error e => rw [haux] at h; cases h
  | ok vs =>
    rw [haux] at h
    cases h
    have hl := renderRowsAux_length meta _ _ haux
    have ht : (rows.take 3).length ≤ 3 := by
      rw [List.length_take]; omega
    exact padTo3_length vs (by omega)

/-- A list of length three is literally a three-element list. -/
theorem three_elem_list (out : List String) (h : out.length = 3) :
    ∃ a b c, out = [a, b, c] := by
  match out, h with
  | [a, b, c], _ => exact ⟨a, b, c, rfl⟩

/-- A single row fails only with `FieldNotFound` of its extracted
field. -/
theorem renderRow_error (meta : List (String × MetadataValue)) (r : String)
    (e : AppError) (h : renderRow meta r = .error e) :
    e = .FieldNotFound (extractField r) := by
  unfold renderRow at h
  cases hl : alookup ("xesam:" ++ extractField r) meta with
  | some v => rw [hl] at h; cases h
  | none =>
    rw [hl] at h
    cases h
    rfl

/-- The rows loop fails only with `FieldNotFound`. -/
theorem renderRowsAux_error_field (meta : List (String × MetadataValue)) :
    ∀ rows e, renderRowsAux meta rows = .error e → ∃ f, e = .FieldNotFound f := by
  intro rows
  induction rows with
  | nil =>
    intro e h
    simp only [renderRowsAux] at h
    cases h
  | cons r rs ih =>
    intro e h
    simp only [renderRowsAux] at h
    cases hr : renderRow meta r with
    | error e' =>
      rw [hr] at h
      cases h
      exact ⟨extractField r, renderRow_error meta r _ hr⟩
    | ok v =>
      rw [hr] at h
      cases haux : renderRowsAux meta rs with
      | error e' =>
        rw [haux] at h
        cases h
        exact ih _ haux
      | ok vs => rw [haux] at h; cases h

/-- A row list with no opening brace is left untouched by the FILTER
regex. -/
theorem filterFind_none_of_no_brace :
    ∀ cs : List Char, cs.all (fun c => c != '\x7b') = true → filterFind cs = none := by
  intro cs
  induction cs with
  | nil => intro _; rfl
  | cons c cs ih =>
    intro h
    rw [List.all_cons, Bool.and_eq_true] at h
    obtain ⟨hc, hcs⟩ := h
    have hc' : ¬c = '\x7b' := by simpa using hc
    by_cases hn : c = '\n'
    · simp [filterFind, hn]
    · simp only [filterFind, if_neg hn, if_neg hc']
      exact ih hcs

/-! ## Claims -/

/-- C2: in the poll loop, a failing tick that immediately follows a
successful (listening) tick makes exactly one retraction (clear)
transport call and flips the listening flag off, and a further
consecutive failing tick makes zero transport calls. -/
theorem c2_retraction_once (st : LoopState) (c : Current) (e1 e2 : AppError) :
    ((tick st (.ok c)).1).listening = true
    ∧ (tick (tick st (.ok c)).1 (.error e1)).2 = [Transport.clear]
    ∧ ((tick (tick st (.ok c)).1 (.error e1)).1).listening = false
    ∧ (tick (tick (tick st (.ok c)).1 (.error e1)).1 (.error e2)).2 = [] := by
  by_cases h : Current.eq st.current c = true <;>
    simp [tick, h]

/-- C7: on a successful tick, an activity-update transport call is made
if and only if the reconciled `Current` differs from the stored one
under `(release, artist, url)` equality; when they are equal the tick
makes no transport call and leaves the stored `Current` unchanged. -/
theorem c7_broadcast_iff_changed (st : LoopState) (c : Current) :
    (tick st (.ok c)).2
        = (if Current.eq st.current c then [] else [Transport.setActivity c.activity])
    ∧ (tick st (.ok c)).1.current
        = (if Current.eq st.current c then st.current else c)
    ∧ (tick st (.ok c)).1.listening = true := by
  by_cases h : Current.eq st.current c = true <;> simp [tick, h]

/-- C10: the synthetic stopped-visible `Current` has empty release,
artist and url, hence compares equal (under the activity-ignoring
`Current.eq`) to the default `Current`; a stopped-and-shown tick on a
default stored `Current` therefore broadcasts nothing, and a
stopped-and-shown tick can broadcast only while a non-default `Current`
is stored. -/
theorem c10_stopped_broadcast_needs_nondefault (st : LoopState) (l : Bool)
    (name : String) :
    (Current.new (some (stoppedActivity name))).release = ""
    ∧ (Current.new (some (stoppedActivity name))).artist = ""
    ∧ (Current.new (some (stoppedActivity name))).url = ""
    ∧ Current.eq (Current.new (some (stoppedActivity name))) Current.default = true
    ∧ tick ⟨l, Current.default⟩ (.ok (Current.new (some (stoppedActivity name))))
        = (⟨true, Current.default⟩, [])
    ∧ ((tick st (.ok (Current.new (some (stoppedActivity name))))).2 ≠ [] →
        Current.eq st.current Current.default = false) := by
  refine ⟨rfl, rfl, rfl, rfl, ?_, ?_⟩
  · simp [tick, Current.eq, Current.new, Current.default]
  · intro h
    rcases Bool.eq_false_or_eq_true
        (Current.eq st.current (Current.new (some (stoppedActivity name)))) with hq | hq
    · exact absurd (by simp [tick, hq] :
        (tick st (.ok (Current.new (some (stoppedActivity name))))).2 = []) h
    · exact hq

/-- C10 witness: a stored `Current` holding a song is non-default, as
the broadcast clause of the theorem concludes for a tick that does send
a packet. -/
theorem c10_witness :
    Current.eq (⟨"R", "A", "u", ActivityInfo.default⟩ : Current) Current.default = false :=
  (c10_stopped_broadcast_needs_nondefault
      ⟨true, ⟨"R", "A", "u", ActivityInfo.default⟩⟩ true "p").2.2.2.2.2 (by decide)

/-- C5: `get_cover_art` returns the cached URL on a cache hit without
consulting the search oracle; on a miss, an empty result set fails with
"could not find release" leaving the cache unchanged, a first
identifier equal to the sentinel fails leaving the cache unchanged, and
any other first identifier is turned into the Cover Art Archive URL,
cached under `release ++ "_" ++ artist`, and returned. -/
theorem c5_cover_art_resolution (search search' : String → String → List String)
    (ca : CoverArt) (cur : Current) :
    (CoverArt.has ca (cur.release ++ "_" ++ cur.artist) = true →
        get_cover_art search ca cur
          = (.ok (CoverArt.get ca (cur.release ++ "_" ++ cur.artist)), ca)
        ∧ get_cover_art search ca cur = get_cover_art search' ca cur)
    ∧ (CoverArt.has ca (cur.release ++ "_" ++ cur.artist) = false →
        (search cur.release cur.artist = [] →
          get_cover_art search ca cur
            = (.error ("could not find release " ++ cur.release), ca))
        ∧ (∀ tl, search cur.release cur.artist = sentinelMbid :: tl →
          get_cover_art search ca cur = (.error "could not find cover art", ca))
        ∧ (∀ mbid tl, search cur.release cur.artist = mbid :: tl →
          ¬mbid = sentinelMbid →
          get_cover_art search ca cur
            = (.ok ("https://coverartarchive.org/release/" ++ mbid ++ "/front"),
               ca.insertCache cur.release cur.artist
                 ("https://coverartarchive.org/release/" ++ mbid ++ "/front")))) := by
  constructor
  · intro h
    constructor <;> simp [get_cover_art, h]
  · intro h
    refine ⟨?_, ?_, ?_⟩
    · intro hs
      simp [get_cover_art, h, hs]
    · intro tl hs
      simp [get_cover_art, h, hs, sentinelMbid]
    · intro mbid tl hs hne
      simp [get_cover_art, h, hs, hne]

/-- C5 witness: a concrete cache hit returns the cached URL. -/
theorem c5_witness :
    get_cover_art (fun _ _ => ["id9"]) ⟨[("R_A", "u0")]⟩ ⟨"R", "A", "", ActivityInfo.default⟩
      = (.ok "u0", ⟨[("R_A", "u0")]⟩) :=
  ((c5_cover_art_resolution (fun _ _ => ["id9"]) (fun _ _ => [])
      ⟨[("R_A", "u0")]⟩ ⟨"R", "A", "", ActivityInfo.default⟩).1 (by decide)).1

/-- C6 counterexample: the template `"hello"` contains no bracket pair,
yet its extracted field name is `"hello"`, not the empty string — the
FILTER regex fails to match and `replace_all` returns the row
unchanged, so the lookup is against `xesam:hello`. -/
theorem c6_counterexample :
    "hello".data.all (fun c => c != '\x7b') = true
    ∧ extractField "hello" = "hello"
    ∧ ¬extractField "hello" = ""
    ∧ renderRow [] "hello" = .error (.FieldNotFound "hello") := by
  decide

/-- C6 (amended): for a template in which the FILTER regex finds no
bracketed field — in particular any template without an opening brace —
`replace_all` leaves the template unchanged, so the extracted field is
the whole template text and the lookup is against `xesam:` followed by
the template, failing with `FieldNotFound` of the template unless the
metadata map defines that key; the extracted field is empty only for
the empty template. -/
theorem c6_no_bracket_keeps_template (s : String)
    (meta : List (String × MetadataValue))
    (hnb : s.data.all (fun c => c != '\x7b') = true) :
    extractField s = s
    ∧ (alookup ("xesam:" ++ s) meta = none →
        renderRow meta s = .error (.FieldNotFound s))
    ∧ extractField "" = "" := by
  have hf : filterFind s.data = none := filterFind_none_of_no_brace s.data hnb
  have he : extractField s = s := by
    unfold extractField
    rw [hf]
  refine ⟨he, ?_, rfl⟩
  intro hl
  unfold renderRow
  rw [he, hl]

/-- C6 witness: a concrete bracket-free template. -/
theorem c6_witness :
    extractField "world" = "world"
    ∧ renderRow [] "world" = .error (.FieldNotFound "world") := by
  have h := c6_no_bracket_keeps_template "world" [] (by decide)
  exact ⟨h.1, h.2.1 rfl⟩

/-- C3: the row-template engine processes at most the first three
templates; each template's bracketed field is extracted, prefixed with
`xesam:` and looked up — a miss aborts the whole render with
`FieldNotFound(field)` (every render failure is a `FieldNotFound`, so
no rows are ever returned on failure), a hit substitutes the
stringified value (strings pass through, lists join with `", "`, other
shapes become `"<unsupported>"`) for the bracket expression preserving
the surrounding text; a successful render always has exactly three
rows, padded with empty strings.  In particular `"Playing {title}"`
with `xesam:title = "Song"` renders to `"Playing Song"`. -/
theorem c3_template_engine_spec :
    (∀ meta rows, renderRows meta rows = renderRows meta (rows.take 3))
    ∧ (∀ meta rows out, renderRows meta rows = .ok out → out.length = 3)
    ∧ (∀ meta rows e, renderRows meta rows = .error e → ∃ f, e = .FieldNotFound f)
    ∧ (∀ meta t rows', alookup ("xesam:" ++ extractField t) meta = none →
        renderRows meta (t :: rows') = .error (.FieldNotFound (extractField t)))
    ∧ (∀ meta t v, alookup ("xesam:" ++ extractField t) meta = some v →
        renderRow meta t
          = .ok (replaceStr t ("\x7b" ++ extractField t ++ "\x7d") (value_to_string v)))
    ∧ value_to_string (.String "Song") = "Song"
    ∧ value_to_string (.Array (.cons (.String "A") (.cons (.String "B") .nil))) = "A, B"
    ∧ value_to_string .Unsupported = "<unsupported>"
    ∧ renderRows [("xesam:title", .String "Song")] ["Playing \x7btitle\x7d"]
        = .ok ["Playing Song", "", ""]
    ∧ renderRows [] ["Playing \x7btitle\x7d"] = .error (.FieldNotFound "title") := by
  refine ⟨?_, ?_, ?_, ?_, ?_, rfl, rfl, rfl, by decide, by decide⟩
  · intro meta rows
    unfold renderRows
    rw [List.take_take]
    simp
  · exact fun meta rows out h => renderRows_length meta rows out h
  · intro meta rows e h
    unfold renderRows at h
    cases haux : renderRowsAux meta (rows.take 3) with
    | error e' =>
      rw [haux] at h
      cases h
      exact renderRowsAux_error_field meta _ _ haux
    | ok vs => rw [haux] at h; cases h
  · intro meta t rows' hl
    have hr : renderRow meta t = .error (.FieldNotFound (extractField t)) := by
      unfold renderRow
      rw [hl]
    unfold renderRows
    rw [show (t :: rows').take 3 = t :: rows'.take 2 from rfl]
    simp [renderRowsAux, hr]
  · intro meta t v hl
    unfold renderRow
    rw [hl]

/-- C3 witness: the concrete render of `"Playing {title}"` has exactly
three rows. -/
theorem c3_witness : (["Playing Song", "", ""] : List String).length = 3 :=
  c3_template_engine_spec.2.1 [("xesam:title", .String "Song")]
    ["Playing \x7btitle\x7d"] ["Playing Song", "", ""] (by decide)

/-- C4 counterexample: requesting the `update_interval` duration with
raw value `"abc"` (not a non-negative integer) fails with `ParseError`
— the `ParseIntError` is boxed by `parse_value` into `Box<dyn Error>`
and converted by `?` into `AppError::ParseError` — not with
`ParseInt`. -/
theorem c4_counterexample :
    (Config.get ⟨[]⟩ envC4 tryFromDuration "update_interval").1 = .error .ParseError
    ∧ ((Except.error AppError.ParseError : Except AppError Nat)
        ≠ .error .ParseInt) := by
  decide

/-- C4 (amended): `Config::get(key)` fails with `EnvVar` exactly when
the key is absent from the environment and not yet cached; it fails
with `TypeMismatch(key)` when the stored (or freshly parsed) value's
variant does not convert to the requested target type; and for the
`update_interval` key with a raw value that is neither a boolean
literal nor a valid non-negative 64-bit integer it fails with
`ParseError` (the boxed integer-parse failure), not `ParseInt`. -/
theorem c4_config_error_taxonomy {α : Type} (tf : ConfigValue → Option α)
    (cfg : Config) (env : String → Option String) (key : String) :
    ((Config.get cfg env tf key).1 = .error .EnvVar
        ↔ alookup key cfg.cache = none ∧ env key = none)
    ∧ (∀ v, alookup key cfg.cache = some v → tf v = none →
        (Config.get cfg env tf key).1 = .error (.TypeMismatch key))
    ∧ (∀ raw v, alookup key cfg.cache = none → env key = some raw →
        Config.parse_value key raw = .ok v → tf v = none →
        (Config.get cfg env tf key).1 = .error (.TypeMismatch key))
    ∧ (∀ raw, alookup "update_interval" cfg.cache = none →
        env "update_interval" = some raw → parseBool raw = none →
        parseU64 raw = none →
        (Config.get cfg env tf "update_interval").1 = .error .ParseError) := by
  refine ⟨⟨?_, ?_⟩, ?_, ?_, ?_⟩
  · intro h
    cases hl : alookup key cfg.cache with
    | some v =>
      exfalso
      simp only [Config.get, hl] at h
      cases htf : tf v with
      | some a => simp [htf] at h
      | none => simp [htf] at h
    | none =>
      cases he : env key with
      | none => exact ⟨rfl, rfl⟩
      | some raw =>
        exfalso
        simp only [Config.get, hl, he] at h
        cases hp : Config.parse_value key raw with
        | error d => simp [hp] at h
        | ok v =>
          simp only [hp] at h
          cases htf : tf v with
          | some a => simp [htf] at h
          | none => simp [htf] at h
  · intro ⟨hl, he⟩
    simp [Config.get, hl, he]
  · intro v hl htf
    simp [Config.get, hl, htf]
  · intro raw v hl he hp htf
    simp [Config.get, hl, he, hp, htf]
  · intro raw hl he hb hu
    have hkey : ¬("update_interval" = "ignored_players"
        ∨ "update_interval" = "rows") := by decide
    have hp : Config.parse_value "update_interval" raw = .error .fromParseInt := by
      simp [Config.parse_value, hb, hkey, hu]
    simp [Config.get, hl, he, hp]

/-- C4 witness: a missing key yields `EnvVar`; the boxed parse failure
of `"abc"` yields `ParseError`. -/
theorem c4_witness :
    (Config.get ⟨[]⟩ (fun _ => none) tryFromBool "show_paused").1 = .error .EnvVar
    ∧ (Config.get ⟨[]⟩ envC4 tryFromDuration "update_interval").1 = .error .ParseError :=
  ⟨(c4_config_error_taxonomy tryFromBool ⟨[]⟩ (fun _ => none) "show_paused").1.mpr
      ⟨rfl, rfl⟩,
   (c4_config_error_taxonomy tryFromDuration ⟨[]⟩ envC4 "update_interval").2.2.2 "abc"
      rfl rfl (by decide) (by decide)⟩

/-- C1 counterexample: with the stored `Current` holding release `"R"`
and artist `"A"` with a non-empty activity, a playing tick reading the
same release `"R"` but a different artist `"B"` — so the newly read
`(release, artist)` pair does not equal the stored one — still
short-circuits: `process_metadata` returns the stored `Current`
unchanged and invokes neither the row-template engine nor the
cover-art resolver (`calls.template = false`, `calls.cover = false`),
because the code compares only the release. -/
theorem c1_counterexample :
    (albumArtistsOf playerA.metadata).map (joinWith ", ") = some "B"
    ∧ storedA.artist = "A"
    ∧ ("B" : String) ≠ "A"
    ∧ storedA.activity.is_empty = false
    ∧ process_metadata envA searchA ⟨[]⟩ ⟨[]⟩ [playerA] storedA
        = some ⟨.ok storedA,
               ⟨[("show_stopped", .Bool false), ("show_paused", .Bool false),
                 ("ignored_players", .Vec ["none"])]⟩,
               ⟨[]⟩, ⟨false, false, true⟩⟩ := by
  decide

/-- C1 (amended): on a playing tick, `process_metadata` returns the
stored `Current` unchanged — invoking neither the row-template engine
nor the cover-art resolver — whenever the newly read release equals the
stored `Current`'s release (the artist is not compared) and the stored
activity is non-empty; and whenever that dedupe condition fails, any
successful tick has invoked the row-template engine. -/
theorem c1_dedupe_compares_release_only
    (env : String → Option String) (search : String → String → List String)
    (cfg0 cfg1 cfg2 cfg3 : Config) (ca : CoverArt)
    (players rest : List Player) (p : Player) (cur : Current)
    (ign : List String) (sp ss : Bool) (album : String) (artists : List String)
    (h1 : Config.get cfg0 env tryFromVec "ignored_players" = (.ok ign, cfg1))
    (h2 : Config.get cfg1 env tryFromBool "show_paused" = (.ok sp, cfg2))
    (h3 : Config.get cfg2 env tryFromBool "show_stopped" = (.ok ss, cfg3))
    (hp : players.filter (fun q => !(ign.contains q.identity)) = p :: rest)
    (hs : p.playback_status = .Playing)
    (ha : albumNameOf p.metadata = some album)
    (hb : albumArtistsOf p.metadata = some artists) :
    (album = cur.release ∧ cur.activity.is_empty = false →
      process_metadata env search cfg0 ca players cur
        = some ⟨.ok cur, cfg3, ca, ⟨false, false, true⟩⟩)
    ∧ (¬(album = cur.release ∧ cur.activity.is_empty = false) →
      ∀ r c, process_metadata env search cfg0 ca players cur = some r →
        r.result = .ok c → r.calls.template = true) := by
  constructor
  · intro hdp
    simp only [process_metadata, h1, h2, h3, hp, hs, ha, hb]
    simp [hdp.1, hdp.2]
  · intro hdp r c hpm hok
    simp only [process_metadata, h1, h2, h3, hp, hs, ha, hb] at hpm
    rw [if_neg hdp] at hpm
    simp only [show (PlaybackStatus.Playing = PlaybackStatus.Stopped) = False by simp,
      show (PlaybackStatus.Playing = PlaybackStatus.Paused) = False by simp,
      and_false, false_and, false_or, or_false, if_false, ite_false] at hpm
    split at hpm
    · simp only [Option.some.injEq] at hpm
      subst hpm
      simp at hok
    · split at hpm
      · simp only [Option.some.injEq] at hpm
        subst hpm
        simp at hok
      · split at hpm
        · simp only [Option.some.injEq] at hpm
          subst hpm
          simp at hok
        · split at hpm
          · simp only [Option.some.injEq] at hpm
            subst hpm
            rfl
          · exact Option.noConfusion hpm

/-- C1 witness: the concrete dedupe tick of the counterexample fixture,
obtained through the amended theorem. -/
theorem c1_witness :
    process_metadata envA searchA ⟨[]⟩ ⟨[]⟩ [playerA] storedA
      = some ⟨.ok storedA,
             ⟨[("show_stopped", .Bool false), ("show_paused", .Bool false),
               ("ignored_players", .Vec ["none"])]⟩,
             ⟨[]⟩, ⟨false, false, true⟩⟩ :=
  (c1_dedupe_compares_release_only envA searchA ⟨[]⟩
      ⟨[("ignored_players", ConfigValue.Vec ["none"])]⟩
      ⟨[("show_paused", ConfigValue.Bool false),
        ("ignored_players", ConfigValue.Vec ["none"])]⟩
      ⟨[("show_stopped", ConfigValue.Bool false),
        ("show_paused", ConfigValue.Bool false),
        ("ignored_players", ConfigValue.Vec ["none"])]⟩
      ⟨[]⟩ [playerA] [] playerA storedA ["none"] false false "R" ["B"]
      rfl rfl rfl rfl rfl rfl rfl).1 ⟨rfl, rfl⟩

/-- C8: when `show_stopped` resolves to `true` and the selected
player's status is `Stopped`, `process_metadata` succeeds with exactly
the synthetic activity `⟨"Stopped playback", "", "", lowercase player
identity⟩`, leaving the cover-art cache untouched and invoking neither
the row-template engine, nor the cover-art resolver, nor the metadata
lookup (`Calls.zero`). -/
theorem c8_stopped_visible
    (env : String → Option String) (search : String → String → List String)
    (cfg0 cfg1 cfg2 cfg3 : Config) (ca : CoverArt)
    (players rest : List Player) (p : Player) (cur : Current)
    (ign : List String) (sp : Bool)
    (h1 : Config.get cfg0 env tryFromVec "ignored_players" = (.ok ign, cfg1))
    (h2 : Config.get cfg1 env tryFromBool "show_paused" = (.ok sp, cfg2))
    (h3 : Config.get cfg2 env tryFromBool "show_stopped" = (.ok true, cfg3))
    (hp : players.filter (fun q => !(ign.contains q.identity)) = p :: rest)
    (hs : p.playback_status = .Stopped) :
    process_metadata env search cfg0 ca players cur
      = some ⟨.ok (Current.new (some (stoppedActivity (lowerStr p.identity)))),
             cfg3, ca, Calls.zero⟩ := by
  simp only [process_metadata, h1, h2, h3, hp, hs]
  simp

/-- C8 witness: a concrete stopped-and-shown tick. -/
theorem c8_witness :
    process_metadata envB searchA ⟨[]⟩ ⟨[]⟩ [playerB] Current.default
      = some ⟨.ok (Current.new (some (stoppedActivity (lowerStr playerB.identity)))),
             ⟨[("show_stopped", .Bool true), ("show_paused", .Bool false),
               ("ignored_players", .Vec ["none"])]⟩,
             ⟨[]⟩, Calls.zero⟩ :=
  c8_stopped_visible envB searchA ⟨[]⟩
    ⟨[("ignored_players", ConfigValue.Vec ["none"])]⟩
    ⟨[("show_paused", ConfigValue.Bool false),
      ("ignored_players", ConfigValue.Vec ["none"])]⟩
    ⟨[("show_stopped", ConfigValue.Bool true),
      ("show_paused", ConfigValue.Bool false),
      ("ignored_players", ConfigValue.Vec ["none"])]⟩
    ⟨[]⟩ [playerB] [] playerB Current.default ["none"] false
    rfl rfl rfl rfl rfl

/-- C9: every `Current` a successful `process_metadata` tick returns is
either the stored one unchanged, the synthetic stopped record, or a
fully assembled record (image row equal to the url, first three rows a
successful three-row render); every successful render followed by the
image push yields exactly four rows, so the row-count assertion always
holds; and the poll loop only ever stores the default `Current`, the
previous one, or a value returned by a successful tick. -/
theorem c9_activity_fully_assembled
    (env : String → Option String) (search : String → String → List String)
    (cfg0 : Config) (ca : CoverArt) (players : List Player) (cur : Current)
    (r : PMResult) (c : Current)
    (hpm : process_metadata env search cfg0 ca players cur = some r)
    (hok : r.result = .ok c) :
    (c = cur ∨ (∃ name, c = Current.new (some (stoppedActivity name)))
      ∨ assembledShape c)
    ∧ (∀ meta rows out url, renderRows meta rows = .ok out →
        (out ++ [url]).length = 4 ∧ ∃ a b c3, out = [a, b, c3])
    ∧ (∀ st res pr, tick st res = pr →
        pr.1.current = st.current ∨ pr.1.current = Current.default
          ∨ ∃ cc, res = .ok cc ∧ pr.1.current = cc) := by
  refine ⟨?_, ?_, ?_⟩
  · simp only [process_metadata] at hpm
    split at hpm
    · simp only [Option.some.injEq] at hpm; subst hpm; simp at hok
    split at hpm
    · simp only [Option.some.injEq] at hpm; subst hpm; simp at hok
    split at hpm
    · simp only [Option.some.injEq] at hpm; subst hpm; simp at hok
    split at hpm
    · simp only [Option.some.injEq] at hpm; subst hpm; simp at hok
    split at hpm
    · simp only [Option.some.injEq] at hpm
      subst hpm
      simp only [Except.ok.injEq] at hok
      right; left
      exact ⟨_, hok.symm⟩
    split at hpm
    · simp only [Option.some.injEq] at hpm; subst hpm; simp at hok
    split at hpm
    case _ album artists ha hb =>
      split at hpm
      · simp only [Option.some.injEq] at hpm
        subst hpm
        simp only [Except.ok.injEq] at hok
        left; exact hok.symm
      · split at hpm
        · simp only [Option.some.injEq] at hpm; subst hpm; simp at hok
        split at hpm
        · simp only [Option.some.injEq] at hpm; subst hpm; simp at hok
        case _ rows cfg4 hrows vs hvs =>
          split at hpm
          · simp only [Option.some.injEq] at hpm; subst hpm; simp at hok
          split at hpm
          case _ a b c3 d heqL =>
            simp only [Option.some.injEq] at hpm
            subst hpm
            simp only [Except.ok.injEq] at hok
            subst hok
            right; right
            obtain ⟨x1, x2, x3, hx⟩ := three_elem_list vs (renderRows_length _ _ _ hvs)
            subst hx
            simp only [List.cons_append, List.nil_append, List.cons.injEq,
              and_true] at heqL
            obtain ⟨e1, e2, e3, e4⟩ := heqL
            subst e1; subst e2; subst e3
            exact ⟨e4.symm, _, _, hvs⟩
          · exact Option.noConfusion hpm
    all_goals exact Option.noConfusion hpm
  · intro meta rows out url h
    have hl := renderRows_length meta rows out h
    refine ⟨?_, three_elem_list out hl⟩
    simp [hl]
  · intro st res pr ht
    cases res with
    | ok cc =>
      by_cases hq : Current.eq st.current cc = true
      · subst ht; left; simp [tick, hq]
      · subst ht
        right; right
        refine ⟨cc, rfl, ?_⟩
        simp [tick, hq]
    | error e =>
      by_cases hq : st.listening = true
      · subst ht; right; left; simp [tick, hq]
      · subst ht; left; simp [tick, hq]

/-- C9 witness: the stopped-and-shown tick of the fixture returns a
`Current` of one of the three permitted shapes. -/
theorem c9_witness :
    Current.new (some (stoppedActivity "myplayer")) = Current.default
    ∨ (∃ name, Current.new (some (stoppedActivity "myplayer"))
        = Current.new (some (stoppedActivity name)))
    ∨ assembledShape (Current.new (some (stoppedActivity "myplayer"))) :=
  (c9_activity_fully_assembled envB searchA ⟨[]⟩ ⟨[]⟩ [playerB] Current.default
      ⟨.ok (Current.new (some (stoppedActivity "myplayer"))),
       ⟨[("show_stopped", .Bool true), ("show_paused", .Bool false),
         ("ignored_players", .Vec ["none"])]⟩,
       ⟨[]⟩, Calls.zero⟩
      (Current.new (some (stoppedActivity "myplayer"))) rfl rfl).1

end DiscordMpris
